import Mathlib

/-!
Verification development for the TEBD repository (file `TEBD_yl831.py`).

The development shallowly embeds the parts of the source that the verified
properties are about:

* the `ncon` tensor-network contractor (tensors as shape + entry function
  over rationals, with the label bookkeeping of the source);
* `check_inputs`, the network validator, including its error messages —
  NOTE: the source of `check_inputs` is syntactically invalid (an
  unclosed parenthesis at lines 178-181, established below by a lexical
  scan of the embedded source text), so the Python module never parses;
  the validator definitions transcribe its text as written;
* the control flow of `doTEBD` (iteration schedule, measurement trace,
  gate construction);
* the weight-vector arithmetic of `apply_gate_MPS` and `orthog_MPS`
  (clamping, truncation, renormalization), with the externally supplied
  singular values and norms of `scipy`/`numpy.linalg` (the
  LinearAlgebraAdapter of the design) appearing as constrained inputs;
* the environment-matrix post-processing of `left_contract_MPS` and
  `right_contract_MPS` over an arbitrary field with a star operation
  (covering the real and complex dtypes of the source).

Machine floats are modelled by exact rationals; properties about
floating-point tolerance become exact statements.
-/

namespace TEBD

/-! ## Weight-vector arithmetic of `apply_gate_MPS` and `orthog_MPS`

`apply_gate_MPS(gateAB, A, sAB, B, sBA, chi, stol=1e-7)` first clamps the
incoming weights `sBA`, contracts the gate into the MPS, calls `LA.svd`,
truncates to `chitemp = min(chi, len(stemp))`, and renormalizes the kept
singular values.  `LA.svd` and `LA.norm` belong to the external
linear-algebra library; their outputs enter the embedding as inputs that
the theorems constrain (`IsEuclidNorm`, sortedness of the singular
values). -/

/-- Default of the `stol` keyword argument of `apply_gate_MPS` (`1e-7`). -/
def stol_default : ℚ := 1 / 10000000

/-- One entry of `sBA_trim = sBA * (sBA > stol) + stol * (sBA < stol)`
(elementwise numpy arithmetic, booleans cast to 0/1). -/
def sBA_trim_entry (stol x : ℚ) : ℚ :=
  x * (if stol < x then 1 else 0) + stol * (if x < stol then 1 else 0)

/-- The clamped weight vector `sBA_trim` of `apply_gate_MPS`. -/
def sBA_trim (stol : ℚ) (sBA : List ℚ) : List ℚ :=
  sBA.map (sBA_trim_entry stol)

/-- Squared Euclidean norm of a vector. -/
def normSq (v : List ℚ) : ℚ := (v.map (fun x => x * x)).sum

/-- `n` is the Euclidean norm of `v` (the value `LA.norm(v)` returns,
characterized exactly instead of through `Real.sqrt`). -/
def IsEuclidNorm (v : List ℚ) (n : ℚ) : Prop := 0 ≤ n ∧ n * n = normSq v

/-- `chitemp = min(chi, len(stemp))` from `apply_gate_MPS`. -/
def apply_gate_chitemp (chi : ℕ) (stemp : List ℚ) : ℕ := min chi stemp.length

/-- The new weight vector of `apply_gate_MPS`:
`sAB = stemp[range(chitemp)] / LA.norm(stemp[range(chitemp)])`, with
`normKept` the externally computed value `LA.norm(stemp[range(chitemp)])`. -/
def apply_gate_sAB (chi : ℕ) (stemp : List ℚ) (normKept : ℚ) : List ℚ :=
  (stemp.take (apply_gate_chitemp chi stemp)).map (fun x => x / normKept)

/-- Shape of the tensor `A` returned by `apply_gate_MPS`:
`(np.diag(1/sBA_trim) @ utemp).reshape(sBA_trim.shape[0], d, chitemp)`. -/
def apply_gate_Ashape (chiBA d chi : ℕ) (stemp : List ℚ) : List ℕ :=
  [chiBA, d, apply_gate_chitemp chi stemp]

/-- Shape of the tensor `B` returned by `apply_gate_MPS`:
`(vhtemp @ np.diag(1/sBA_trim)).reshape(chitemp, d, chiBA)`. -/
def apply_gate_Bshape (chiBA d chi : ℕ) (stemp : List ℚ) : List ℕ :=
  [apply_gate_chitemp chi stemp, d, chiBA]

/-- The new weight vector of `orthog_MPS`: `sBA = stemp / LA.norm(stemp)`,
with `normAll` the externally computed value `LA.norm(stemp)`. -/
def orthog_sBA (stemp : List ℚ) (normAll : ℚ) : List ℚ :=
  stemp.map (fun x => x / normAll)

/-- Descending order (the order `LA.svd` returns singular values in). -/
def SortedDesc (v : List ℚ) : Prop := List.Pairwise (fun a b => b ≤ a) v

instance (v : List ℚ) : Decidable (SortedDesc v) := by
  unfold SortedDesc; infer_instance

/-! ## Control flow of `doTEBD`

The iteration schedule of `doTEBD` does not depend on the tensor data:
the only data-dependent pieces of control flow are `evotype` (gate
construction), `numiter`, `midsteps` and `magz is not None`.  The model
below records the sequence of operations the loop performs (a trace
semantics); the tensor-valued results, which the scheduling claims do not
mention, are abstracted to `Unit`, and each `sim_E_0`/`m_z` trace entry
records the iteration index at which the measurement was appended. -/

/-- One operation performed by the `doTEBD` loop body at iteration `k`:
the canonicalization block (`left_contract_MPS`, `right_contract_MPS`,
`orthog_MPS` twice, tensor renormalization), the measurement block
(`loc_density_MPS`, energy contraction, trace appends, optional `find_mz`),
or one of the two `apply_gate_MPS` calls. -/
inductive TEBDEvent where
  | canonicalize : ℕ → TEBDEvent
  | measure : ℕ → TEBDEvent
  | gateAB : ℕ → TEBDEvent
  | gateBA : ℕ → TEBDEvent
deriving DecidableEq, Repr

/-- The nine values of `return A, B, sAB, sBA, rhoAB, rhoBA, time,
sim_E_0, m_z` at the end of `doTEBD`; the six tensor-valued components
are abstracted. -/
structure TEBDReturn where
  A : Unit
  B : Unit
  sAB : Unit
  sBA : Unit
  rhoAB : Unit
  rhoBA : Unit
  time : List ℕ
  sim_E_0 : List ℕ
  m_z : List ℕ
deriving DecidableEq, Repr

/-- Accumulated state of the `doTEBD` loop. -/
structure TEBDLoopState where
  time : List ℕ
  sim_E_0 : List ℕ
  m_z : List ℕ
  events : List TEBDEvent
deriving DecidableEq, Repr

/-- Gate construction at the top of `doTEBD`: gates are bound only in the
`evotype == "real"` and `evotype == "imag"` branches (`expm` is external;
the gate values are abstracted). -/
def mkGates (evotype : String) : Option Unit :=
  if evotype = "real" then some ()
  else if evotype = "imag" then some ()
  else none

/-- Condition `np.mod(k, midsteps) == 0 or (k == numiter)` guarding the
canonicalize-and-measure block. -/
def measureCond (numiter midsteps k : ℕ) : Bool :=
  (k % midsteps == 0) || (k == numiter)

/-- Body of `for k in range(numiter + 1)`.  Referencing `gateAB` when no
gate was bound raises a `NameError`; the error value records the
iteration index at which it is raised and the events executed so far. -/
def doTEBD_body (numiter midsteps : ℕ) (hasGates hasMagz : Bool)
    (st : TEBDLoopState) (k : ℕ) :
    Except (ℕ × String × List TEBDEvent) TEBDLoopState :=
  let st1 := if measureCond numiter midsteps k then
      { st with
        time := st.time ++ [k]
        sim_E_0 := st.sim_E_0 ++ [k]
        m_z := if hasMagz then st.m_z ++ [k] else st.m_z
        events := st.events ++ [.canonicalize k, .measure k] }
    else st
  if k < numiter then
    if hasGates then
      .ok { st1 with events := st1.events ++ [.gateAB k, .gateBA k] }
    else
      .error (k, "NameError: name gateAB is not defined", st1.events)
  else
    .ok st1

/-- Control-flow model of `doTEBD`: run the loop for
`k in range(numiter + 1)` and package the nine returned values together
with the event trace. -/
def doTEBD_run (evotype : String) (numiter midsteps : ℕ)
    (magz : Option Unit) :
    Except (ℕ × String × List TEBDEvent) (TEBDReturn × List TEBDEvent) :=
  match (List.range (numiter + 1)).foldlM
      (doTEBD_body numiter midsteps (mkGates evotype).isSome magz.isSome)
      ⟨[], [], [], []⟩ with
  | .error e => .error e
  | .ok st =>
      .ok ({ A := (), B := (), sAB := (), sBA := (), rhoAB := (),
             rhoBA := (), time := st.time, sim_E_0 := st.sim_E_0,
             m_z := st.m_z }, st.events)

/-- The iteration indices at which the canonicalize-and-measure block
runs. -/
def measuredKs (numiter midsteps : ℕ) : List ℕ :=
  (List.range (numiter + 1)).filter (measureCond numiter midsteps)

/-- Events contributed by iteration `k`. -/
def iterEvents (numiter midsteps : ℕ) (k : ℕ) : List TEBDEvent :=
  (if measureCond numiter midsteps k then [.canonicalize k, .measure k]
   else []) ++
  (if k < numiter then [.gateAB k, .gateBA k] else [])

/-- The full event trace of a completed `doTEBD` run. -/
def doTEBD_events (numiter midsteps : ℕ) : List TEBDEvent :=
  (List.range (numiter + 1)).flatMap (iterEvents numiter midsteps)

/-! ## The `ncon` tensor-network contractor

Tensors are embedded as a shape together with an entry function on index
lists (row-major semantics, matching `numpy`): `reshape` goes through the
C-order linearization, `transpose` permutes axes, `tensordot` sums over
the contracted axes.  Entries are exact rationals. -/

/-- A dense tensor: an explicit shape and an entry function. -/
structure NTensor where
  shape : List ℕ
  entry : List ℕ → ℚ

instance : Inhabited NTensor := ⟨⟨[], fun _ => 0⟩⟩

/-- Product of a list of dimensions (`np.prod`). -/
def prodl (l : List ℕ) : ℕ := l.foldr (fun a b => a * b) 1

/-- Total number of entries (`np.size`). -/
def NTensor.size (t : NTensor) : ℕ := prodl t.shape

/-- Row-major (C-order) linearization of a multi-index. -/
def ravel (shape idx : List ℕ) : ℕ :=
  (shape.zip idx).foldl (fun acc di => acc * di.1 + di.2) 0

/-- Inverse of `ravel`: the multi-index with the given linear position. -/
def unravel (shape : List ℕ) (n : ℕ) : List ℕ :=
  (shape.foldr (fun d acc => (acc.2 % d :: acc.1, acc.2 / d))
    (([] : List ℕ), n)).1

/-- `np.reshape` in C order. -/
def NTensor.reshape (t : NTensor) (newshape : List ℕ) : NTensor :=
  ⟨newshape, fun idx => t.entry (unravel t.shape (ravel newshape idx))⟩

/-- `np.transpose(t, perm)`: axis `i` of the result is axis `perm[i]` of
`t`. -/
def NTensor.transpose (t : NTensor) (perm : List ℕ) : NTensor :=
  ⟨perm.map (fun j => t.shape.getD j 0),
   fun idx => t.entry ((List.range t.shape.length).map
     (fun j => idx.getD (perm.indexOf j) 0))⟩

/-- All multi-indices of a shape, in row-major order. -/
def allIdx : List ℕ → List (List ℕ)
  | [] => [[]]
  | d :: rest => (List.range d).flatMap (fun i => (allIdx rest).map (i :: ·))

/-- Rebuild a full multi-index from its free part and its contracted
part: position `j` takes the contracted component when `j` is a
contracted axis, the free component otherwise. -/
def assembleIdx (rank : ℕ) (free con fidx cidx : List ℕ) : List ℕ :=
  (List.range rank).map (fun j =>
    if con.contains j then cidx.getD (con.indexOf j) 0
    else fidx.getD (free.indexOf j) 0)

/-- `np.tensordot(t1, t2, axes=(axes1, axes2))`: free axes of `t1` (in
order), then free axes of `t2`, summing over the paired contracted
axes. -/
def tensordot (t1 t2 : NTensor) (axes1 axes2 : List ℕ) : NTensor :=
  let free1 := (List.range t1.shape.length).filter (fun j => ¬ axes1.contains j)
  let free2 := (List.range t2.shape.length).filter (fun j => ¬ axes2.contains j)
  let cdims := axes1.map (fun j => t1.shape.getD j 0)
  ⟨free1.map (fun j => t1.shape.getD j 0) ++
     free2.map (fun j => t2.shape.getD j 0),
   fun idx =>
     let fidx1 := idx.take free1.length
     let fidx2 := idx.drop free1.length
     ((allIdx cdims).map (fun ks =>
       t1.entry (assembleIdx t1.shape.length free1 axes1 fidx1 ks) *
       t2.entry (assembleIdx t2.shape.length free2 axes2 fidx2 ks))).sum⟩

/-- The outer-product step of `ncon`:
`np.outer(a.reshape(np.prod(s1)), b.reshape(np.prod(s2))).reshape(np.append(s1, s2))`. -/
def outerT (t1 t2 : NTensor) : NTensor :=
  NTensor.reshape
    ⟨[t1.size, t2.size], fun ij =>
      (t1.reshape [t1.size]).entry [ij.getD 0 0] *
      (t2.reshape [t2.size]).entry [ij.getD 1 0]⟩
    (t1.shape ++ t2.shape)

/-- `np.unique`: sorted distinct values. -/
def uniqueSorted (l : List ℤ) : List ℤ :=
  List.insertionSort (fun a b => a ≤ b) l.dedup

/-- `np.delete(l, ps)`: drop the elements at the listed positions. -/
def deleteAtPositions (l : List ℤ) (ps : List ℕ) : List ℤ :=
  ((List.range l.length).filter (fun j => ¬ ps.contains j)).map
    (fun j => l.getD j 0)

/-- `np.delete` for positions into a list of naturals. -/
def deleteAtPositionsN (l : List ℕ) (ps : List ℕ) : List ℕ :=
  ((List.range l.length).filter (fun j => ¬ ps.contains j)).map
    (fun j => l.getD j 0)

/-- `np.argsort` for integer keys (ascending; ties broken by position,
which agrees with numpy whenever the keys are distinct). -/
def argsortZ (v : List ℤ) : List ℕ :=
  List.insertionSort
    (fun i j => v.getD i 0 < v.getD j 0 ∨ (v.getD i 0 = v.getD j 0 ∧ i ≤ j))
    (List.range v.length)

/-- `np.argsort` for natural-number keys. -/
def argsortN (v : List ℕ) : List ℕ :=
  List.insertionSort
    (fun i j => v.getD i 0 < v.getD j 0 ∨ (v.getD i 0 = v.getD j 0 ∧ i ≤ j))
    (List.range v.length)

/-- Positions of the occurrences of `e` in `l` (`np.where(l == e)[0]`). -/
def positionsOf (l : List ℤ) (e : ℤ) : List ℕ :=
  (List.range l.length).filter (fun j => l.getD j 0 = e)

/-- `partial_trace(A, A_label)` from the source: trace out the axis pairs
carrying repeated labels.  The numpy code reshapes the stacked position
pairs in Fortran order, so the contracted axes are the first occurrences
followed by the second occurrences; a label repeated more than twice
makes the numpy reshape fail, which surfaces as an error here too. -/
def self_trace (A : NTensor) (A_label : List ℤ) :
    Except String (NTensor × List ℤ × List ℤ) :=
  let num_cont := A_label.length - A_label.dedup.length
  if num_cont > 0 then
    let dup_list := ((uniqueSorted A_label).filter
      (fun e => 1 < A_label.count e)).map (positionsOf A_label)
    if dup_list.any (fun ps => ps.length ≠ 2) then
      .error "ncon: cannot reshape stacked duplicate positions"
    else
      let cont_ind := dup_list.map (fun ps => ps.getD 0 0) ++
        dup_list.map (fun ps => ps.getD 1 0)
      let free_ind := (List.range A_label.length).filter
        (fun j => ¬ cont_ind.contains j)
      let cont_dim := prodl ((dup_list.map (fun ps => ps.getD 0 0)).map
        (fun j => A.shape.getD j 0))
      let free_dim := free_ind.map (fun j => A.shape.getD j 0)
      let B_label := deleteAtPositions A_label cont_ind
      let cont_label := uniqueSorted (cont_ind.map
        (fun j => A_label.getD j 0))
      let At := (A.transpose (free_ind ++ cont_ind)).reshape
        [prodl free_dim, cont_dim, cont_dim]
      let B := NTensor.reshape
        ⟨[prodl free_dim], fun ix =>
          ((List.range cont_dim).map
            (fun ip => At.entry [ix.getD 0 0, ip, ip])).sum⟩
        free_dim
      .ok (B, B_label, cont_label)
  else
    .ok (A, A_label, [])

/-! ### `check_inputs` and its error messages

CAUTION — the source of `check_inputs` does not parse.  In the
rank/label-length check (source lines 178-181) the line applying the `%`
format operands is commented out, which leaves the parenthesis opened by
`raise ValueError((` on line 178 unclosed: CPython rejects the whole
module with a SyntaxError before anything runs (this is established
below by a lexical scan of the source lines, `pyParenDepth`).  The
program therefore has no runtime validation behavior at all.

The definitions in this subsection transcribe the checks as they are
written in the source text — the rank branch carrying the raw template
string that the broken statement contains — so that the validation call
inside `ncon` (source line 64) can be expressed; no verified claim rests
on their runtime behavior. -/

def msg_len_mismatch (ntensors nsublists : ℕ) : String :=
  "mismatch between " ++ toString ntensors ++ " tensors given but " ++
    toString nsublists ++ " index sublists given"

/-- The rank/label-length message template as it appears in the source.
The statement that would raise it is syntactically invalid (unclosed
parenthesis, see the lexical scan below), so nothing carrying this
template — or any formatted version of it — is ever raised. -/
def msg_rank_template : String :=
  "number of indices does not match number of labels on tensor %i: " ++
    "%i-indices versus %i-labels"

def msg_bad_order : String := "NCON error: invalid contraction order"

def msg_no_neg (ind : ℤ) : String :=
  "NCON error: no index labelled " ++ toString ind

def msg_dup_neg (ind : ℤ) : String :=
  "NCON error: more than one index labelled " ++ toString ind

def msg_one_pos (ind : ℤ) : String :=
  "NCON error: only one index labelled " ++ toString ind

def msg_many_pos (ind : ℤ) : String :=
  "NCON error: more than two indices labelled " ++ toString ind

def msg_dim_mismatch (ind : ℤ) (d0 d1 : ℕ) : String :=
  "NCON error: tensor dimension mismatch on index labelled " ++
    toString ind ++ ": dim-" ++ toString d0 ++ " versus dim-" ++
    toString d1

/-- First check: `len(dims_list) != len(connect_list)`. -/
def len_err (connect_list : List (List ℤ)) (dims_list : List (List ℕ)) :
    Option String :=
  if dims_list.length ≠ connect_list.length then
    some (msg_len_mismatch dims_list.length connect_list.length)
  else none

/-- Second check: each tensor rank against its label count, as written.
The source statement for this branch (lines 178-181) does not parse —
see the lexical scan below — so this branch describes the text, not any
reachable behavior. -/
def rank_err (connect_list : List (List ℤ)) (dims_list : List (List ℕ)) :
    Option String :=
  (List.range dims_list.length).findSome? (fun ele =>
    if (dims_list.getD ele []).length ≠ (connect_list.getD ele []).length
    then some msg_rank_template else none)

/-- Third check: `np.sort(con_order)` against `np.unique(pos_ind)`. -/
def order_err (con_order pos_ind : List ℤ) : Option String :=
  if List.insertionSort (fun a b => a ≤ b) con_order ≠ uniqueSorted pos_ind
  then some msg_bad_order else none

/-- Fourth check: negative labels must be exactly `-1, …, -len(neg_ind)`,
each once. -/
def neg_err (neg_ind : List ℤ) : Option String :=
  (List.range neg_ind.length).findSome? (fun i =>
    let ind : ℤ := -((i : ℤ) + 1)
    if neg_ind.count ind = 0 then some (msg_no_neg ind)
    else if 1 < neg_ind.count ind then some (msg_dup_neg ind)
    else none)

/-- `cont_dims = flat_dims[flat_connect == ind]`: the dimensions carried
by the occurrences of label `ind`. -/
def cont_dims_at (flat_connect : List ℤ) (flat_dims : List ℕ) (ind : ℤ) :
    List ℕ :=
  ((flat_connect.zip flat_dims).filter (fun q => q.1 = ind)).map
    (fun q => q.2)

/-- Body of the positive-label loop for one label `ind`: counts, then the
dimension comparison across the two occurrences. -/
def pos_label_err (pos_ind flat_connect : List ℤ) (flat_dims : List ℕ)
    (ind : ℤ) : Option String :=
  if pos_ind.count ind = 1 then some (msg_one_pos ind)
  else if 2 < pos_ind.count ind then some (msg_many_pos ind)
  else
    let cont_dims := cont_dims_at flat_connect flat_dims ind
    if cont_dims.getD 0 0 ≠ cont_dims.getD 1 0 then
      some (msg_dim_mismatch ind (cont_dims.getD 0 0) (cont_dims.getD 1 0))
    else none

/-- Fifth check: loop over `np.unique(pos_ind)` (ascending). -/
def pos_err (pos_ind flat_connect : List ℤ) (flat_dims : List ℕ) :
    Option String :=
  (uniqueSorted pos_ind).findSome?
    (pos_label_err pos_ind flat_connect flat_dims)

/-- `check_inputs(connect_list, flat_connect, dims_list, con_order)` as
written: the five checks in source order, the first failing check
raising.  The function's own source contains the unclosed parenthesis of
lines 178-181, so the Python module never compiles and none of these
raises is reachable (see the lexical scan below); this definition is the
transcription of the text that `ncon` (line 64) calls. -/
def check_inputs (connect_list : List (List ℤ)) (flat_connect : List ℤ)
    (dims_list : List (List ℕ)) (con_order : List ℤ) :
    Except String Bool :=
  let pos_ind := flat_connect.filter (fun x => 0 < x)
  let neg_ind := flat_connect.filter (fun x => x < 0)
  match len_err connect_list dims_list <|>
    rank_err connect_list dims_list <|>
    order_err con_order pos_ind <|>
    neg_err neg_ind <|>
    pos_err pos_ind flat_connect dims_list.flatten with
  | some msg => .error msg
  | none => .ok true

/-! ### Lexical scan of the broken `check_inputs` source

CPython parses a suite by tracking string literals, `#` comments and
bracket nesting; a parenthesis still open at the end of the file is a
`SyntaxError: ( was never closed`.  The scanner below models exactly the
lexical features occurring in source lines 176-209: single-quoted string
literals (no escape sequences occur there), `#` comments running to the
end of the physical line, and parenthesis nesting.  The source lines are
embedded verbatim (apostrophes written as `\x27` escapes). -/

/-- Scan one physical line: `depth` is the parenthesis nesting, `inStr`
whether the scanner is inside a single-quoted string.  Returns `none` on
a close parenthesis with no matching open.  A `#` outside a string
starts a comment running to the end of the line. -/
def pyScanLine : ℕ → Bool → List Char → Option (ℕ × Bool)
  | depth, inStr, [] => some (depth, inStr)
  | depth, true, c :: cs =>
      if c.toNat == 39 then pyScanLine depth false cs
      else pyScanLine depth true cs
  | depth, false, c :: cs =>
      if c.toNat == 39 then pyScanLine depth true cs
      else if c = '#' then some (depth, false)
      else if c = '(' then pyScanLine (depth + 1) false cs
      else if c = ')' then
        match depth with
        | 0 => none
        | d + 1 => pyScanLine d false cs
      else pyScanLine depth false cs

/-- Scan a list of physical lines (none of the scanned source lines has
a string spanning lines). -/
def pyParenLines : ℕ → List String → Option ℕ
  | depth, [] => some depth
  | depth, l :: ls =>
      match pyScanLine depth false l.toList with
      | none => none
      | some (d, _) => pyParenLines d ls

/-- Net parenthesis depth after scanning the given source lines from
depth 0; `some 0` means the parentheses balance, `some (k+1)` that `k+1`
opens are never closed, `none` an unmatched close. -/
def pyParenDepth (lines : List String) : Option ℕ := pyParenLines 0 lines

/-- Source lines 178-181 of `TEBD_yl831.py`: the rank/label-length
`raise` statement, with the `%`-operand line commented out. -/
def rank_raise_src : List String :=
  ["      raise ValueError((",
   "          \x27number of indices does not match number of labels on tensor %i: \x27",
   "          \x27%i-indices versus %i-labels\x27)",
   "#           % (ele, len(dims_list[ele]), len(connect_list[ele])))"]

/-- The same statement with the commented-out operand line restored
(the leading `#` removed): this is the statement the code clearly
intended, and its parentheses balance. -/
def rank_raise_fixed_src : List String :=
  ["      raise ValueError((",
   "          \x27number of indices does not match number of labels on tensor %i: \x27",
   "          \x27%i-indices versus %i-labels\x27)",
   "           % (ele, len(dims_list[ele]), len(connect_list[ele])))"]

/-- Source lines 176-209 of `TEBD_yl831.py`: the rank/label-length loop
through the end of `check_inputs` (negative- and positive-label checks
included). -/
def check_inputs_tail_src : List String :=
  ["  for ele in range(len(dims_list)):",
   "    if len(dims_list[ele]) != len(connect_list[ele]):",
   "      raise ValueError((",
   "          \x27number of indices does not match number of labels on tensor %i: \x27",
   "          \x27%i-indices versus %i-labels\x27)",
   "#           % (ele, len(dims_list[ele]), len(connect_list[ele])))",
   "",
   "  # check that contraction order is valid",
   "  if not np.array_equal(np.sort(con_order), np.unique(pos_ind)):",
   "    raise ValueError((\x27NCON error: invalid contraction order\x27))",
   "",
   "  # check that negative indices are valid",
   "  for ind in np.arange(-1, -len(neg_ind) - 1, -1):",
   "    if sum(neg_ind == ind) == 0:",
   "      raise ValueError((\x27NCON error: no index labelled %i\x27) % (ind))",
   "    elif sum(neg_ind == ind) > 1:",
   "      raise ValueError((\x27NCON error: more than one index labelled %i\x27) % (ind))",
   "",
   "  # check that positive indices are valid and contracted tensor dimensions match",
   "  flat_dims = np.array([item for sublist in dims_list for item in sublist])",
   "  for ind in np.unique(pos_ind):",
   "    if sum(pos_ind == ind) == 1:",
   "      raise ValueError((\x27NCON error: only one index labelled %i\x27) % (ind))",
   "    elif sum(pos_ind == ind) > 2:",
   "      raise ValueError(",
   "          (\x27NCON error: more than two indices labelled %i\x27) % (ind))",
   "",
   "    cont_dims = flat_dims[flat_connect == ind]",
   "    if cont_dims[0] != cont_dims[1]:",
   "      raise ValueError(",
   "          (\x27NCON error: tensor dimension mismatch on index labelled %i: \x27",
   "           \x27dim-%i versus dim-%i\x27) % (ind, cont_dims[0], cont_dims[1]))",
   "",
   "  return True"]

/-! ### The contraction passes of `ncon` -/

/-- `np.delete(con_order, np.intersect1d(con_order, vals,
return_indices=True)[1])`: remove the first occurrence of every value
shared with `vals`. -/
def removeFirstVals (con vals : List ℤ) : List ℤ :=
  let common := uniqueSorted (con.filter (fun x => vals.contains x))
  deleteAtPositions con (common.map (fun v => con.indexOf v))

/-- The partial-trace pass: `for ele in range(len(tensor_list))`,
replacing each tensor with repeated labels by its partial trace and
removing the traced labels from the contraction order. -/
def tracePass (ts : List NTensor) (cs : List (List ℤ)) (con : List ℤ) :
    Except String (List NTensor × List (List ℤ) × List ℤ) :=
  (List.range ts.length).foldlM (fun acc ele => do
    let (ts, cs, con) := acc
    let c := cs.getD ele []
    if c.length - c.dedup.length > 0 then
      match self_trace (ts.getD ele default) c with
      | .error e => .error e
      | .ok (B, B_label, cont_label) =>
          .ok (ts.set ele B, cs.set ele B_label,
            removeFirstVals con cont_label)
    else
      .ok (ts, cs, con)) (ts, cs, con)

/-- One step of the binary-contraction loop: contract the pair of tensors
sharing `con_order[0]` over all of their shared labels; fails like the
Python `locs[1]` lookup when fewer than two tensors carry the label. -/
def binaryStep (ts : List NTensor) (cs : List (List ℤ)) (cont_ind : ℤ) :
    Except String (List NTensor × List (List ℤ) × List ℤ) :=
  let locs := (List.range cs.length).filter
    (fun ele => 0 < (cs.getD ele []).count cont_ind)
  if locs.length < 2 then
    .error "ncon: IndexError: fewer than two tensors carry a contraction label"
  else
    let l0 := locs.getD 0 0
    let l1 := locs.getD 1 0
    let c0 := cs.getD l0 []
    let c1 := cs.getD l1 []
    let cont_many := uniqueSorted (c0.filter (fun x => c1.contains x))
    let A_cont := cont_many.map (fun v => c0.indexOf v)
    let B_cont := cont_many.map (fun v => c1.indexOf v)
    let ind_order :=
      if (ts.getD l0 default).size < (ts.getD l1 default).size then
        argsortN A_cont
      else argsortN B_cont
    let newT := tensordot (ts.getD l0 default) (ts.getD l1 default)
      (ind_order.map (fun r => A_cont.getD r 0))
      (ind_order.map (fun r => B_cont.getD r 0))
    let newC := deleteAtPositions c0 A_cont ++ deleteAtPositions c1 B_cont
    .ok (((ts ++ [newT]).eraseIdx l1).eraseIdx l0,
      ((cs ++ [newC]).eraseIdx l1).eraseIdx l0, cont_many)

/-- The binary-contraction loop (`while len(con_order) > 0`), with fuel:
each iteration removes at least `con_order[0]` from the order, so the
initial length of `con_order` is enough fuel and the out-of-fuel branch
is unreachable on inputs the Python loop terminates on. -/
def binaryLoop : ℕ → List NTensor → List (List ℤ) → List ℤ →
    Except String (List NTensor × List (List ℤ))
  | _, ts, cs, [] => .ok (ts, cs)
  | 0, _, _, _ => .error "ncon: contraction order not consumed"
  | fuel + 1, ts, cs, cont_ind :: rest =>
      match binaryStep ts cs cont_ind with
      | .error e => .error e
      | .ok (ts, cs, cont_many) =>
          binaryLoop fuel ts cs
            (removeFirstVals (cont_ind :: rest) cont_many)

/-- The outer-product pass (`while len(tensor_list) > 1`): repeatedly
merge the last two tensors, appending their label lists. -/
def outerAll (t : NTensor) (c : List ℤ) :
    List NTensor → List (List ℤ) → NTensor × List ℤ
  | [], _ => (t, c)
  | t2 :: ts, c2 :: cs =>
      let r := outerAll t2 c2 ts cs
      (outerT t r.1, c ++ r.2)
  | _ :: _, [] => (t, c)

/-- The final permutation of `ncon`:
`np.transpose(tensor_list[0], np.argsort(-connect_list[0]))` when open
labels remain, the bare scalar (a rank-0 tensor here) otherwise. -/
def final_permutation (t : NTensor) (labels : List ℤ) : NTensor :=
  if 0 < labels.length then
    t.transpose (argsortZ (labels.map (fun x => -x)))
  else t

/-- `ncon(tensors, connects, con_order, check_network)`: validation,
partial traces, binary contractions, outer products, final permutation.
The unused `which_env` keyword of the source is omitted.  This is a
transcription of the function's source text; since the module containing
it fails CPython parsing (the `check_inputs` statement at lines 178-181,
see the lexical scan above), no call of the Python `ncon` is actually
executable, and no verified claim relies on a full run of this model. -/
def ncon (tensors : List NTensor) (connects : List (List ℤ))
    (con_order? : Option (List ℤ)) (check_network : Bool) :
    Except String NTensor := do
  if tensors.isEmpty then
    .error "ncon: np.concatenate of an empty connect list"
  else
    let flat_connect := connects.flatten
    let con_order := match con_order? with
      | none => uniqueSorted (flat_connect.filter (fun x => 0 < x))
      | some co => co
    if check_network then
      let _ ← check_inputs connects flat_connect
        (tensors.map NTensor.shape) con_order
    let (ts, cs, con_order) ← tracePass tensors connects con_order
    let (ts, cs) ← binaryLoop con_order.length ts cs con_order
    let r := outerAll (ts.getD 0 default) (cs.getD 0 []) (ts.drop 1)
      (cs.drop 1)
    .ok (final_permutation r.1 r.2)

/-- Modelled from the spec: the axis order the claim asserts — open
labels sorted by DECREASING magnitude of their absolute value (ties by
position). -/
def spec_decreasing_perm (labels : List ℤ) : List ℕ :=
  List.insertionSort
    (fun i j => (labels.getD j 0).natAbs < (labels.getD i 0).natAbs ∨
      ((labels.getD j 0).natAbs = (labels.getD i 0).natAbs ∧ i ≤ j))
    (List.range labels.length)

/-- Modelled from the spec: the output shape the decreasing-magnitude
ordering would produce. -/
def spec_decreasing_shape (t : NTensor) (labels : List ℤ) : List ℕ :=
  (spec_decreasing_perm labels).map (fun j => t.shape.getD j 0)

/-! ## Environment matrices of `left_contract_MPS` / `right_contract_MPS`

After the `eigs` call (external iterative eigensolver) the source
post-processes the reshaped eigenvector `M`: symmetrize
(`0.5 * (M + conj(M.T))`) and divide by the trace; then it builds the
adjacent bond's environment matrix by one more contraction with the
weights and divides by its trace.  The matrices are embedded over an
arbitrary field `K` with a star operation, covering the real branch
(`np.isrealobj`, star the identity) and the complex one; the eigenvector
is an arbitrary matrix `M`, exactly as the claim treats it. -/

/-- `0.5 * (sigBA + np.conj(sigBA.T))`. -/
def envSym (K : Type) [Field K] [StarRing K] (n : ℕ)
    (M : Matrix (Fin n) (Fin n) K) : Matrix (Fin n) (Fin n) K :=
  (1 / 2 : K) • (M + M.conjTranspose)

/-- `M / np.trace(M)`. -/
def envTraceNorm (K : Type) [Field K] [StarRing K] (n : ℕ)
    (M : Matrix (Fin n) (Fin n) K) : Matrix (Fin n) (Fin n) K :=
  Matrix.of fun a b => M a b / M.trace

/-- The environment matrix `sigBA` of `left_contract_MPS` (and `muAB` of
`right_contract_MPS`): symmetrized, then trace-normalized. -/
def env_fixed_point (K : Type) [Field K] [StarRing K] (n : ℕ)
    (M : Matrix (Fin n) (Fin n) K) : Matrix (Fin n) (Fin n) K :=
  envTraceNorm K n (envSym K n M)

/-- The network
`ncon([sigBA, np.diag(sBA), np.diag(sBA), A, np.conj(A)],
[[1, 2], [1, 3], [2, 4], [3, 5, -1], [4, 5, -2]])` of
`left_contract_MPS`, written as the sum it contracts to. -/
def sigAB_raw (K : Type) [Field K] [StarRing K] (n d m : ℕ)
    (sigBA : Matrix (Fin n) (Fin n) K) (sBA : Fin n → K)
    (A : Fin n → Fin d → Fin m → K) : Matrix (Fin m) (Fin m) K :=
  Matrix.of fun a b => ∑ i, ∑ j, ∑ p,
    sigBA i j * sBA i * sBA j * A i p a * star (A j p b)

/-- `sigAB` of `left_contract_MPS`: the contraction above, divided by its
trace. -/
def left_contract_sigAB (K : Type) [Field K] [StarRing K] (n d m : ℕ)
    (M : Matrix (Fin n) (Fin n) K) (sBA : Fin n → K)
    (A : Fin n → Fin d → Fin m → K) : Matrix (Fin m) (Fin m) K :=
  envTraceNorm K m (sigAB_raw K n d m (env_fixed_point K n M) sBA A)

/-- The network
`ncon([muAB, np.diag(sAB), np.diag(sAB), A, A.conj()],
[[1, 2], [3, 1], [5, 2], [-1, 4, 3], [-2, 4, 5]])` of
`right_contract_MPS`, written as the sum it contracts to. -/
def muBA_raw (K : Type) [Field K] [StarRing K] (n d m : ℕ)
    (muAB : Matrix (Fin m) (Fin m) K) (sAB : Fin m → K)
    (A : Fin n → Fin d → Fin m → K) : Matrix (Fin n) (Fin n) K :=
  Matrix.of fun a b => ∑ i, ∑ j, ∑ p,
    muAB i j * sAB i * sAB j * A a p i * star (A b p j)

/-- `muBA` of `right_contract_MPS`: the contraction above, divided by its
trace. -/
def right_contract_muBA (K : Type) [Field K] [StarRing K] (n d m : ℕ)
    (N : Matrix (Fin m) (Fin m) K) (sAB : Fin m → K)
    (A : Fin n → Fin d → Fin m → K) : Matrix (Fin n) (Fin n) K :=
  envTraceNorm K n (muBA_raw K n d m (env_fixed_point K m N) sAB A)

theorem normSq_map_div (v : List ℚ) (n : ℚ) (hn : n ≠ 0) :
    normSq (v.map (fun x => x / n)) = normSq v / (n * n) := by
  induction v with
  | nil => simp [normSq]
  | cons x xs ih =>
    simp only [List.map_cons, normSq, List.sum_cons] at ih ⊢
    rw [show (x / n * (x / n)) = x * x / (n * n) by field_simp]
    rw [ih, div_add_div_same]

theorem normSq_of_isEuclidNorm_ne_zero (v : List ℚ) (n : ℚ)
    (h : IsEuclidNorm v n) (hn : n ≠ 0) :
    normSq (v.map (fun x => x / n)) = 1 := by
  rw [normSq_map_div v n hn, ← h.2, div_self (mul_ne_zero hn hn)]

/-- C3: the weight vector returned by `apply_gate_MPS`
(`stemp[range(chitemp)] / LA.norm(stemp[range(chitemp)])`) and the one
returned by `orthog_MPS` (`stemp / LA.norm(stemp)`) have Euclidean norm 1,
exactly, whenever the norms divided by are nonzero, so `sAB` and `sBA`
stay unit-normalized after every gate application and canonicalization. -/
theorem C3_unit_norm (chi : ℕ) (stempG stempO : List ℚ) (nG nO : ℚ)
    (hG : IsEuclidNorm (stempG.take (apply_gate_chitemp chi stempG)) nG)
    (hG0 : nG ≠ 0) (hO : IsEuclidNorm stempO nO) (hO0 : nO ≠ 0) :
    normSq (apply_gate_sAB chi stempG nG) = 1 ∧
    normSq (orthog_sBA stempO nO) = 1 :=
  ⟨normSq_of_isEuclidNorm_ne_zero _ nG hG hG0,
   normSq_of_isEuclidNorm_ne_zero _ nO hO hO0⟩

/-- C3 witness: concrete run with `stemp = [3, 4]`, whose Euclidean norm
is the rational 5. -/
theorem C3_unit_norm_witness :
    (IsEuclidNorm (([3, 4] : List ℚ).take (apply_gate_chitemp 2 [3, 4])) 5 ∧
     (5 : ℚ) ≠ 0 ∧ IsEuclidNorm ([3, 4] : List ℚ) 5) ∧
    (normSq (apply_gate_sAB 2 [3, 4] 5) = 1 ∧
     normSq (orthog_sBA [3, 4] 5) = 1) :=
  ⟨⟨by norm_num [IsEuclidNorm, normSq, apply_gate_chitemp], by norm_num,
    by norm_num [IsEuclidNorm, normSq]⟩,
   C3_unit_norm 2 [3, 4] [3, 4] 5 5
     (by norm_num [IsEuclidNorm, normSq, apply_gate_chitemp]) (by norm_num)
     (by norm_num [IsEuclidNorm, normSq]) (by norm_num)⟩

/-- C4 counterexample: the claim says the returned weight vector is the
first `min(chi, rank)` components of the SVD ("consists of the largest
singular values of the composite two-site matrix").  With singular values
`stemp = [2, 0]` (descending, Euclidean norm 2) and `chi = 2`, the code
returns `[1, 0]`, the renormalized prefix, not the prefix `[2, 0]`
itself. -/
theorem C4_counterexample :
    IsEuclidNorm (([2, 0] : List ℚ).take (apply_gate_chitemp 2 [2, 0])) 2 ∧
    SortedDesc ([2, 0] : List ℚ) ∧
    apply_gate_sAB 2 [2, 0] 2 = [1, 0] ∧
    apply_gate_sAB 2 [2, 0] 2 ≠ ([2, 0] : List ℚ).take (min 2 (2 * 1)) := by
  refine ⟨by norm_num [IsEuclidNorm, normSq, apply_gate_chitemp],
    by norm_num [SortedDesc],
    by norm_num [apply_gate_sAB, apply_gate_chitemp],
    by norm_num [apply_gate_sAB, apply_gate_chitemp]⟩

/-- C4 (amended): the returned weight vector has length
`min(chi, d·chiBA)`, equals the first `min(chi, rank)` singular values of
the composite matrix renormalized to unit Euclidean norm — a positive
multiple of the SVD prefix, kept in its native descending order with no
re-sorting — and the returned site tensors have the matching truncated
bond dimension.  `stemp` is what `LA.svd` returned on the
`(d·chiBA) × (d·chiBA)` composite matrix (hence `len(stemp) = d·chiBA`,
descending); `nK` is `LA.norm` of the kept prefix. -/
theorem C4_truncation (chi d chiBA : ℕ) (stemp : List ℚ) (nK : ℚ)
    (hlen : stemp.length = d * chiBA)
    (hdesc : SortedDesc stemp)
    (hnorm : IsEuclidNorm (stemp.take (apply_gate_chitemp chi stemp)) nK)
    (hpos : 0 < nK) :
    (apply_gate_sAB chi stemp nK).length = min chi (d * chiBA) ∧
    apply_gate_sAB chi stemp nK =
      (stemp.take (min chi (d * chiBA))).map (fun x => x / nK) ∧
    SortedDesc (apply_gate_sAB chi stemp nK) ∧
    apply_gate_Ashape chiBA d chi stemp = [chiBA, d, min chi (d * chiBA)] ∧
    apply_gate_Bshape chiBA d chi stemp = [min chi (d * chiBA), d, chiBA] := by
  have hchit : apply_gate_chitemp chi stemp = min chi (d * chiBA) := by
    rw [apply_gate_chitemp, hlen]
  refine ⟨?_, ?_, ?_, ?_, ?_⟩
  · rw [apply_gate_sAB, List.length_map, List.length_take, hchit, hlen]
    omega
  · rw [apply_gate_sAB, hchit]
  · rw [apply_gate_sAB]
    refine List.Pairwise.map _ ?_ (List.Pairwise.sublist (List.take_sublist _ _) hdesc)
    intro a b hba
    gcongr
  · rw [apply_gate_Ashape, hchit]
  · rw [apply_gate_Bshape, hchit]

/-- C4 witness: `chi = 1`, `d = 2`, `chiBA = 1`, `stemp = [4, 3]`;
the kept prefix is `[4]` with norm 4, so the result is `[1]`. -/
theorem C4_truncation_witness :
    (([4, 3] : List ℚ).length = 2 * 1 ∧ SortedDesc ([4, 3] : List ℚ) ∧
     IsEuclidNorm (([4, 3] : List ℚ).take (apply_gate_chitemp 1 [4, 3])) 4 ∧
     (0 : ℚ) < 4) ∧
    ((apply_gate_sAB 1 [4, 3] 4).length = min 1 (2 * 1) ∧
     apply_gate_sAB 1 [4, 3] 4 =
       (([4, 3] : List ℚ).take (min 1 (2 * 1))).map (fun x => x / 4) ∧
     SortedDesc (apply_gate_sAB 1 [4, 3] 4) ∧
     apply_gate_Ashape 1 2 1 [4, 3] = [1, 2, min 1 (2 * 1)] ∧
     apply_gate_Bshape 1 2 1 [4, 3] = [min 1 (2 * 1), 2, 1]) :=
  ⟨⟨by norm_num, by norm_num [SortedDesc],
    by norm_num [IsEuclidNorm, normSq, apply_gate_chitemp], by norm_num⟩,
   C4_truncation 1 2 1 [4, 3] 4 (by norm_num) (by norm_num [SortedDesc])
     (by norm_num [IsEuclidNorm, normSq, apply_gate_chitemp]) (by norm_num)⟩

/-- C5: the code comment says the clamp ensures singular values are above
the tolerance threshold, and the claim says every clamped entry is at
least `stol`; but at an entry exactly equal to `stol` both masks
`sBA > stol` and `sBA < stol` are false and the clamped entry is 0, so
the subsequent division `1/sBA_trim` divides by zero. -/
theorem C5_trim_at_stol :
    sBA_trim stol_default [stol_default] = [0] ∧ (0 : ℚ) < stol_default := by
  refine ⟨?_, by norm_num [stol_default]⟩
  norm_num [sBA_trim, sBA_trim_entry]

theorem doTEBD_foldl_ok (numiter midsteps : ℕ) (hasMagz : Bool)
    (l : List ℕ) (st : TEBDLoopState) :
    l.foldlM (doTEBD_body numiter midsteps true hasMagz) st =
      .ok ⟨st.time ++ l.filter (measureCond numiter midsteps),
           st.sim_E_0 ++ l.filter (measureCond numiter midsteps),
           st.m_z ++ (if hasMagz then
             l.filter (measureCond numiter midsteps) else []),
           st.events ++ l.flatMap (iterEvents numiter midsteps)⟩ := by
  induction l generalizing st with
  | nil => cases st; cases hasMagz <;> simp [pure, Except.pure]
  | cons k rest ih =>
    have hbody : doTEBD_body numiter midsteps true hasMagz st k =
        .ok ⟨st.time ++ (if measureCond numiter midsteps k then [k] else []),
             st.sim_E_0 ++ (if measureCond numiter midsteps k then [k] else []),
             st.m_z ++ (if hasMagz then
               (if measureCond numiter midsteps k then [k] else []) else []),
             st.events ++ iterEvents numiter midsteps k⟩ := by
      rw [doTEBD_body, iterEvents]
      by_cases hk : k < numiter <;>
        cases hc : measureCond numiter midsteps k <;>
        cases hasMagz <;>
          simp [hc, hk, List.append_assoc]
    rw [List.foldlM_cons, hbody]
    show (rest.foldlM (doTEBD_body numiter midsteps true hasMagz) _) = _
    rw [ih]
    cases hc : measureCond numiter midsteps k <;> cases hasMagz <;>
      simp_all [iterEvents, List.filter_cons, List.flatMap_cons,
        List.append_assoc]

theorem doTEBD_run_ok (evotype : String) (numiter midsteps : ℕ)
    (magz : Option Unit) (hg : (mkGates evotype).isSome = true) :
    doTEBD_run evotype numiter midsteps magz =
      .ok ({ A := (), B := (), sAB := (), sBA := (), rhoAB := (),
             rhoBA := (),
             time := measuredKs numiter midsteps,
             sim_E_0 := measuredKs numiter midsteps,
             m_z := if magz.isSome then measuredKs numiter midsteps
               else [] },
           doTEBD_events numiter midsteps) := by
  rw [doTEBD_run, hg, doTEBD_foldl_ok]
  simp [measuredKs, doTEBD_events]

theorem count_flatMap_range_indicator (f : ℕ → List TEBDEvent)
    (e : TEBDEvent) (k : ℕ) (c : Prop) [Decidable c]
    (hf : ∀ j, (f j).count e = if j = k ∧ c then 1 else 0) :
    ∀ m, ((List.range m).flatMap f).count e =
      if k < m ∧ c then 1 else 0 := by
  intro m
  induction m with
  | zero => simp
  | succ m ih =>
    rw [List.range_succ, List.flatMap_append, List.count_append, ih]
    simp only [List.flatMap_cons, List.flatMap_nil, List.append_nil, hf m]
    by_cases h3 : c
    · simp only [h3, and_true]
      split_ifs <;> omega
    · simp [h3]

theorem count_gateAB_iterEvents (numiter midsteps k j : ℕ) :
    (iterEvents numiter midsteps j).count (TEBDEvent.gateAB k) =
      if j = k ∧ k < numiter then 1 else 0 := by
  rw [iterEvents, List.count_append]
  by_cases he : j = k
  · subst he
    by_cases hj : j < numiter <;>
      by_cases hm : measureCond numiter midsteps j = true <;>
        simp [hj, hm, List.count_cons]
  · by_cases hj : j < numiter <;>
      by_cases hm : measureCond numiter midsteps j = true <;>
        simp [hj, hm, he, List.count_cons]

theorem count_gateBA_iterEvents (numiter midsteps k j : ℕ) :
    (iterEvents numiter midsteps j).count (TEBDEvent.gateBA k) =
      if j = k ∧ k < numiter then 1 else 0 := by
  rw [iterEvents, List.count_append]
  by_cases he : j = k
  · subst he
    by_cases hj : j < numiter <;>
      by_cases hm : measureCond numiter midsteps j = true <;>
        simp [hj, hm, List.count_cons]
  · by_cases hj : j < numiter <;>
      by_cases hm : measureCond numiter midsteps j = true <;>
        simp [hj, hm, he, List.count_cons]

theorem count_measure_iterEvents (numiter midsteps k j : ℕ) :
    (iterEvents numiter midsteps j).count (TEBDEvent.measure k) =
      if j = k ∧ (k % midsteps = 0 ∨ k = numiter) then 1 else 0 := by
  rw [iterEvents, List.count_append]
  have hgates : List.count (TEBDEvent.measure k)
      (if j < numiter then [TEBDEvent.gateAB j, TEBDEvent.gateBA j]
       else []) = 0 := by
    by_cases hj : j < numiter <;> simp [hj, List.count_cons]
  rw [hgates, Nat.add_zero]
  by_cases he : j = k
  · subst he
    by_cases hc : j % midsteps = 0 ∨ j = numiter
    · have hm : measureCond numiter midsteps j = true := by
        simp only [measureCond, Bool.or_eq_true, beq_iff_eq]
        exact hc
      simp [hm, hc, List.count_cons]
    · have hm : measureCond numiter midsteps j = false := by
        simp only [measureCond, Bool.or_eq_false_iff, beq_eq_false_iff_ne,
          ne_eq]
        push_neg at hc
        exact hc
      simp [hm, hc]
  · by_cases hm : measureCond numiter midsteps j = true <;>
      simp [hm, he, List.count_cons]

/-- C2: in every completing `doTEBD` run the two-gate evolution step
(`apply_gate_MPS` on the A–B bond then on the resulting B–A bond) executes
exactly once for each iteration index `k < numiter`, and the
canonicalize-and-measure block executes exactly at those
`k ∈ {0, …, numiter}` with `k % midsteps = 0` or `k = numiter`, recording
one `(iteration, energy)` trace entry per such `k`. -/
theorem C2_schedule (evotype : String) (numiter midsteps : ℕ)
    (magz : Option Unit) (hg : (mkGates evotype).isSome = true)
    (hm : 1 ≤ midsteps) :
    doTEBD_run evotype numiter midsteps magz =
      .ok ({ A := (), B := (), sAB := (), sBA := (), rhoAB := (),
             rhoBA := (),
             time := measuredKs numiter midsteps,
             sim_E_0 := measuredKs numiter midsteps,
             m_z := if magz.isSome then measuredKs numiter midsteps
               else [] },
           doTEBD_events numiter midsteps) ∧
    (∀ k, (doTEBD_events numiter midsteps).count (TEBDEvent.gateAB k) =
      if k < numiter then 1 else 0) ∧
    (∀ k, (doTEBD_events numiter midsteps).count (TEBDEvent.gateBA k) =
      if k < numiter then 1 else 0) ∧
    (∀ k, (doTEBD_events numiter midsteps).count (TEBDEvent.measure k) =
      if k ≤ numiter ∧ (k % midsteps = 0 ∨ k = numiter) then 1 else 0) ∧
    measuredKs numiter midsteps =
      (List.range (numiter + 1)).filter (measureCond numiter midsteps) := by
  refine ⟨doTEBD_run_ok evotype numiter midsteps magz hg, ?_, ?_, ?_, rfl⟩
  · intro k
    rw [doTEBD_events,
      count_flatMap_range_indicator _ _ k (k < numiter)
        (fun j => count_gateAB_iterEvents numiter midsteps k j) (numiter + 1)]
    by_cases h : k < numiter <;> simp [h] <;> omega
  · intro k
    rw [doTEBD_events,
      count_flatMap_range_indicator _ _ k (k < numiter)
        (fun j => count_gateBA_iterEvents numiter midsteps k j) (numiter + 1)]
    by_cases h : k < numiter <;> simp [h] <;> omega
  · intro k
    rw [doTEBD_events,
      count_flatMap_range_indicator _ _ k (k % midsteps = 0 ∨ k = numiter)
        (fun j => count_measure_iterEvents numiter midsteps k j) (numiter + 1)]
    congr 1
    simp only [eq_iff_iff]
    omega

/-- C2 witness: `numiter = 3`, `midsteps = 2`; gates fire once at
`k = 0, 1, 2`, measurements happen at `k = 0, 2, 3`. -/
theorem C2_schedule_witness :
    ((mkGates "imag").isSome = true ∧ 1 ≤ 2) ∧
    (doTEBD_events 3 2).count (TEBDEvent.gateAB 2) = 1 ∧
    (doTEBD_events 3 2).count (TEBDEvent.gateAB 3) = 0 ∧
    (doTEBD_events 3 2).count (TEBDEvent.measure 1) = 0 ∧
    (doTEBD_events 3 2).count (TEBDEvent.measure 3) = 1 ∧
    measuredKs 3 2 = [0, 2, 3] := by
  obtain ⟨h1, h2, h3, h4, h5⟩ :=
    C2_schedule "imag" 3 2 none (by decide) (by decide)
  exact ⟨⟨by decide, by decide⟩, by simpa using h2 2, by simpa using h2 3,
    by simpa using h4 1, by simpa using h4 3, by decide⟩

/-- C9: with `evotype` neither `"real"` nor `"imag"` and `numiter ≥ 1`,
no gates are constructed and no validation error is raised at entry: the
canonicalize-and-measure block at `k = 0` still runs, and the run fails
with an unbound-name error when the first evolution step references
`gateAB`. -/
theorem C9_unbound_gateAB (evotype : String) (numiter midsteps : ℕ)
    (magz : Option Unit) (h1 : evotype ≠ "real") (h2 : evotype ≠ "imag")
    (h3 : 1 ≤ numiter) :
    mkGates evotype = none ∧
    doTEBD_run evotype numiter midsteps magz =
      .error (0, "NameError: name gateAB is not defined",
        [TEBDEvent.canonicalize 0, TEBDEvent.measure 0]) := by
  have hmk : mkGates evotype = none := by simp [mkGates, h1, h2]
  refine ⟨hmk, ?_⟩
  rw [doTEBD_run, hmk]
  obtain ⟨n, rfl⟩ : ∃ n, numiter = n + 1 := ⟨numiter - 1, by omega⟩
  rw [List.range_succ_eq_map, List.foldlM_cons]
  simp only [Option.isSome_none]
  have hbody : doTEBD_body (n + 1) midsteps false magz.isSome
      ⟨[], [], [], []⟩ 0 =
      .error (0, "NameError: name gateAB is not defined",
        [TEBDEvent.canonicalize 0, TEBDEvent.measure 0]) := by
    rw [doTEBD_body]
    have hc : measureCond (n + 1) midsteps 0 = true := by
      simp [measureCond]
    cases hmg : magz.isSome <;> simp [hc]
  rw [hbody]
  rfl

/-- C9 witness: `evotype = "blah"`, `numiter = 1`. -/
theorem C9_unbound_gateAB_witness :
    (("blah" : String) ≠ "real" ∧ ("blah" : String) ≠ "imag" ∧
      (1 : ℕ) ≤ 1) ∧
    (mkGates "blah" = none ∧
     doTEBD_run "blah" 1 10 none =
       .error (0, "NameError: name gateAB is not defined",
         [TEBDEvent.canonicalize 0, TEBDEvent.measure 0])) :=
  ⟨⟨by decide, by decide, by decide⟩,
   C9_unbound_gateAB "blah" 1 10 none (by decide) (by decide) (by decide)⟩

/-- C10: `doTEBD` returns nine values (the fields of `TEBDReturn`), the
ninth being the magnetization trace `m_z`: it is the empty list whenever
`magz` is `None`, and otherwise has exactly one entry per
canonicalize-and-measure cycle (one per entry of the `time` trace). -/
theorem C10_mz_trace (evotype : String) (numiter midsteps : ℕ)
    (magz : Option Unit) (hg : (mkGates evotype).isSome = true) :
    doTEBD_run evotype numiter midsteps magz =
      .ok ({ A := (), B := (), sAB := (), sBA := (), rhoAB := (),
             rhoBA := (),
             time := measuredKs numiter midsteps,
             sim_E_0 := measuredKs numiter midsteps,
             m_z := if magz.isSome then measuredKs numiter midsteps
               else [] },
           doTEBD_events numiter midsteps) ∧
    (magz = none →
      (if magz.isSome then measuredKs numiter midsteps else []) = []) ∧
    (magz.isSome = true →
      (if magz.isSome then measuredKs numiter midsteps else []).length =
        (measuredKs numiter midsteps).length) := by
  refine ⟨doTEBD_run_ok evotype numiter midsteps magz hg, ?_, ?_⟩
  · intro h; subst h; rfl
  · intro h; rw [h]; rfl

theorem getD_range_map_self (l : List ℤ) (d : ℤ) :
    (List.range l.length).map (fun j => l.getD j d) = l := by
  apply List.ext_getElem
  · simp
  · intro i h1 h2
    simp [List.getD_eq_getElem?_getD, List.getElem?_eq_getElem h2]

theorem argsortZ_perm_range (v : List ℤ) :
    (argsortZ v).Perm (List.range v.length) :=
  List.perm_insertionSort _ _

theorem argsortZ_sorted_keys (v : List ℤ) :
    List.Sorted (fun a b => a ≤ b)
      ((argsortZ v).map (fun j => v.getD j 0)) := by
  have htot : IsTotal ℕ
      (fun i j => v.getD i 0 < v.getD j 0 ∨
        (v.getD i 0 = v.getD j 0 ∧ i ≤ j)) := by
    constructor
    intro a b
    rcases lt_trichotomy (v.getD a 0) (v.getD b 0) with h | h | h
    · exact Or.inl (Or.inl h)
    · rcases Nat.le_total a b with hab | hab
      · exact Or.inl (Or.inr ⟨h, hab⟩)
      · exact Or.inr (Or.inr ⟨h.symm, hab⟩)
    · exact Or.inr (Or.inl h)
  have htrans : IsTrans ℕ
      (fun i j => v.getD i 0 < v.getD j 0 ∨
        (v.getD i 0 = v.getD j 0 ∧ i ≤ j)) := by
    constructor
    intro a b c hab hbc
    rcases hab with h1 | ⟨h1, h1'⟩ <;> rcases hbc with h2 | ⟨h2, h2'⟩
    · exact Or.inl (h1.trans h2)
    · exact Or.inl (h2 ▸ h1)
    · exact Or.inl (h1 ▸ h2)
    · exact Or.inr ⟨h1.trans h2, h1'.trans h2'⟩
  have hs := List.sorted_insertionSort
    (r := fun i j => v.getD i 0 < v.getD j 0 ∨
      (v.getD i 0 = v.getD j 0 ∧ i ≤ j)) (List.range v.length)
  rw [List.Sorted, List.pairwise_map]
  exact hs.imp (fun h => by
    rcases h with h | ⟨h, _⟩
    · exact le_of_lt h
    · exact le_of_eq h)

/-- C1 counterexample, traced on the final-permutation step itself
(source lines 126-128, the code the claim cites): the single remaining
tensor has shape `[1, 2]` and connect list `[-2, -1]`;
`np.argsort(-connect) = [1, 0]`, so the returned tensor has shape
`[2, 1]` — output axis 0 carries label `-1`, the SMALLER magnitude — and
entry `(1, 0)` of the output is entry `(0, 1)` of the input, whereas the
claimed decreasing-magnitude ordering would leave the shape `[1, 2]`. -/
theorem C1_counterexample :
    (final_permutation
      ⟨[1, 2], fun idx => if idx = [0, 1] then (7 : ℚ) else 3⟩
      [-2, -1]).shape = [2, 1] ∧
    (final_permutation
      ⟨[1, 2], fun idx => if idx = [0, 1] then (7 : ℚ) else 3⟩
      [-2, -1]).entry [1, 0] = 7 ∧
    spec_decreasing_shape
      ⟨[1, 2], fun idx => if idx = [0, 1] then (7 : ℚ) else 3⟩
      [-2, -1] = [1, 2] ∧
    ([2, 1] : List ℕ) ≠ [1, 2] := by
  exact ⟨rfl, rfl, rfl, by decide⟩

/-- C1 (amended): when the network's open labels are (a permutation of)
`-1, …, -n`, as validation guarantees, the final permutation of `ncon`
orders the output axes by INCREASING magnitude of the absolute value of
their labels: the labels along the output axes read `-1, -2, …, -n`, so
output axis `i` corresponds to label `-(i+1)`, and the output shape reads
the input shape through that permutation. -/
theorem C1_output_axis_order (t : NTensor) (labels : List ℤ) (n : ℕ)
    (hperm : labels.Perm ((List.range n).map (fun i : ℕ => -((i : ℤ) + 1))))
    (hn : 0 < n) :
    (argsortZ (labels.map (fun x => -x))).map (fun j => labels.getD j 0) =
      (List.range n).map (fun i : ℕ => -((i : ℤ) + 1)) ∧
    (final_permutation t labels).shape =
      (argsortZ (labels.map (fun x => -x))).map
        (fun j => t.shape.getD j 0) := by
  have hlen : labels.length = n := by
    have := hperm.length_eq
    simpa only [List.length_map, List.length_range] using this
  set v := labels.map (fun x => -x) with hv
  have hvlen : v.length = n := by simp [hv, hlen]
  have hfun : ((fun x : ℤ => -x) ∘ (fun i : ℕ => -((i : ℤ) + 1))) =
      (fun i : ℕ => (i : ℤ) + 1) := by
    funext i
    simp
  have hvperm : v.Perm ((List.range n).map (fun i : ℕ => (i : ℤ) + 1)) := by
    have h2 := hperm.map (fun x : ℤ => -x)
    rw [List.map_map, hfun] at h2
    exact h2
  -- the sorted key list is exactly 1, …, n
  have hm : (argsortZ v).map (fun j => v.getD j 0) =
      (List.range n).map (fun i : ℕ => (i : ℤ) + 1) := by
    apply List.eq_of_perm_of_sorted (r := fun a b : ℤ => a ≤ b)
    · have p1 : ((argsortZ v).map (fun j => v.getD j 0)).Perm v := by
        have p0 := (argsortZ_perm_range v).map (fun j => v.getD j 0)
        rwa [getD_range_map_self v 0] at p0
      exact p1.trans hvperm
    · exact argsortZ_sorted_keys v
    · rw [List.Sorted, List.pairwise_map]
      exact (List.pairwise_lt_range n).imp (fun h => by omega)
  have hmem : ∀ j ∈ argsortZ v, j < n := by
    intro j hj
    have : j ∈ List.range v.length := ((argsortZ_perm_range v).mem_iff).mp hj
    rw [hvlen] at this
    exact List.mem_range.mp this
  have hneg : ∀ j ∈ argsortZ v, labels.getD j 0 = -(v.getD j 0) := by
    intro j hj
    have hjn : j < labels.length := by rw [hlen]; exact hmem j hj
    have hjv : j < v.length := by rw [hvlen]; exact hmem j hj
    rw [List.getD_eq_getElem?_getD, List.getD_eq_getElem?_getD,
      List.getElem?_eq_getElem hjn, List.getElem?_eq_getElem hjv]
    simp [hv]
  constructor
  · calc (argsortZ v).map (fun j => labels.getD j 0)
        = (argsortZ v).map (fun j => -(v.getD j 0)) :=
          List.map_congr_left hneg
      _ = ((argsortZ v).map (fun j => v.getD j 0)).map (fun x => -x) := by
          rw [List.map_map]
          rfl
      _ = ((List.range n).map (fun i : ℕ => (i : ℤ) + 1)).map (fun x => -x) := by
          rw [hm]
      _ = (List.range n).map (fun i : ℕ => -((i : ℤ) + 1)) := by
          rw [List.map_map]
          rfl
  · rw [final_permutation, if_pos (by rw [hlen]; exact hn)]
    rfl

/-- C1 amended-claim witness: `labels = [-2, -1]` is a permutation of
`-1, -2`; the output labels read `-1, -2`. -/
theorem C1_output_axis_order_witness :
    (([-2, -1] : List ℤ).Perm
      ((List.range 2).map (fun i : ℕ => -((i : ℤ) + 1))) ∧ (0 : ℕ) < 2) ∧
    ((argsortZ (([-2, -1] : List ℤ).map (fun x => -x))).map
        (fun j => ([-2, -1] : List ℤ).getD j 0) =
      (List.range 2).map (fun i : ℕ => -((i : ℤ) + 1)) ∧
    (final_permutation ⟨[1, 2], fun _ => 0⟩ [-2, -1]).shape =
      (argsortZ (([-2, -1] : List ℤ).map (fun x => -x))).map
        (fun j => ([1, 2] : List ℕ).getD j 0)) :=
  ⟨⟨by decide, by decide⟩,
   C1_output_axis_order ⟨[1, 2], fun _ => 0⟩ [-2, -1] 2 (by decide)
     (by decide)⟩

/-- C10 witness: `magz = some ()`, so the magnetization trace has one
entry per measurement. -/
theorem C10_mz_trace_witness :
    ((mkGates "real").isSome = true) ∧
    (doTEBD_run "real" 2 1 (some ()) =
      .ok ({ A := (), B := (), sAB := (), sBA := (), rhoAB := (),
             rhoBA := (),
             time := measuredKs 2 1,
             sim_E_0 := measuredKs 2 1,
             m_z := if (some ()).isSome then measuredKs 2 1 else [] },
           doTEBD_events 2 1)) ∧
    ((if (some ()).isSome then measuredKs 2 1 else []).length =
      (measuredKs 2 1).length) :=
  ⟨by decide, (C10_mz_trace "real" 2 1 (some ()) (by decide)).1,
   (C10_mz_trace "real" 2 1 (some ()) (by decide)).2.2 (by decide)⟩

/-- C7: no rank/label-length validation error is ever raised, let alone
one identifying the offending tensor: commenting out the `%`-operand
line (source line 181) leaves the parenthesis opened by
`raise ValueError((` on line 178 unclosed — the lexical scan of the
statement ends at depth 1 instead of 0 — so CPython rejects the module
with `SyntaxError: ( was never closed (line 178)` before any network is
processed.  Restoring the commented-out line balances the statement,
showing the comment is exactly what broke it. -/
theorem C7_rank_raise_never_parses :
    pyParenDepth rank_raise_src = some 1 ∧
    pyParenDepth rank_raise_src ≠ some 0 ∧
    pyParenDepth rank_raise_fixed_src = some 0 := by
  refine ⟨by decide, by decide, by decide⟩

/-- C8: the positive-label validation errors are never raised for any
network: the whole remainder of `check_inputs` (source lines 176-209),
the positive-label loop included, sits inside the parenthesis opened on
line 178 that no later line of the function closes — the lexical scan of
lines 176-209 still ends at depth 1 — so the module fails to parse
(CPython: `SyntaxError: ( was never closed (line 178)`) and the program
can never raise `NCON error: only one index labelled ...`,
`... more than two indices labelled ...`, or the dimension-mismatch
error that the claim (and the spec) describe. -/
theorem C8_check_inputs_never_parses :
    pyParenDepth check_inputs_tail_src = some 1 ∧
    pyParenDepth check_inputs_tail_src ≠ some 0 := by
  refine ⟨by decide, by decide⟩

theorem star_two_eq (K : Type) [Field K] [StarRing K] :
    star (2 : K) = 2 := by
  rw [show (2 : K) = 1 + 1 by norm_num, star_add, star_one]

theorem envSym_isHermitian (K : Type) [Field K] [StarRing K] (n : ℕ)
    (M : Matrix (Fin n) (Fin n) K) : (envSym K n M).IsHermitian := by
  rw [Matrix.IsHermitian, envSym, Matrix.conjTranspose_smul,
    Matrix.conjTranspose_add, Matrix.conjTranspose_conjTranspose]
  rw [show star (1 / 2 : K) = 1 / 2 by
    rw [one_div, star_inv₀, star_two_eq]]
  rw [add_comm]

theorem trace_star_of_isHermitian (K : Type) [Field K] [StarRing K]
    (n : ℕ) (M : Matrix (Fin n) (Fin n) K) (h : M.IsHermitian) :
    star M.trace = M.trace := by
  rw [← Matrix.trace_conjTranspose, h]

theorem envTraceNorm_isHermitian (K : Type) [Field K] [StarRing K]
    (n : ℕ) (M : Matrix (Fin n) (Fin n) K) (h : M.IsHermitian) :
    (envTraceNorm K n M).IsHermitian := by
  rw [Matrix.IsHermitian]
  ext a b
  rw [Matrix.conjTranspose_apply, envTraceNorm]
  simp only [Matrix.of_apply]
  rw [star_div₀, trace_star_of_isHermitian K n M h, h.apply a b]

theorem envTraceNorm_trace (K : Type) [Field K] [StarRing K] (n : ℕ)
    (M : Matrix (Fin n) (Fin n) K) (h : M.trace ≠ 0) :
    (envTraceNorm K n M).trace = 1 := by
  rw [Matrix.trace, envTraceNorm]
  simp only [Matrix.diag_apply, Matrix.of_apply]
  rw [← Finset.sum_div]
  exact div_self h

theorem sigAB_raw_isHermitian (K : Type) [Field K] [StarRing K]
    (n d m : ℕ) (sigBA : Matrix (Fin n) (Fin n) K) (sBA : Fin n → K)
    (A : Fin n → Fin d → Fin m → K) (hsig : sigBA.IsHermitian)
    (hs : ∀ i, star (sBA i) = sBA i) :
    (sigAB_raw K n d m sigBA sBA A).IsHermitian := by
  rw [Matrix.IsHermitian]
  ext a b
  rw [Matrix.conjTranspose_apply, sigAB_raw]
  simp only [Matrix.of_apply, star_sum, star_mul, star_star, hs]
  rw [Finset.sum_comm]
  refine Finset.sum_congr rfl (fun i _ => ?_)
  refine Finset.sum_congr rfl (fun j _ => ?_)
  refine Finset.sum_congr rfl (fun p _ => ?_)
  rw [show star (sigBA j i) = sigBA i j by rw [← hsig.apply i j]]
  ring

theorem muBA_raw_isHermitian (K : Type) [Field K] [StarRing K]
    (n d m : ℕ) (muAB : Matrix (Fin m) (Fin m) K) (sAB : Fin m → K)
    (A : Fin n → Fin d → Fin m → K) (hmu : muAB.IsHermitian)
    (hs : ∀ i, star (sAB i) = sAB i) :
    (muBA_raw K n d m muAB sAB A).IsHermitian := by
  rw [Matrix.IsHermitian]
  ext a b
  rw [Matrix.conjTranspose_apply, muBA_raw]
  simp only [Matrix.of_apply, star_sum, star_mul, star_star, hs]
  rw [Finset.sum_comm]
  refine Finset.sum_congr rfl (fun i _ => ?_)
  refine Finset.sum_congr rfl (fun j _ => ?_)
  refine Finset.sum_congr rfl (fun p _ => ?_)
  rw [show star (muAB j i) = muAB i j by rw [← hmu.apply i j]]
  ring

/-- C6: treating the eigensolver outputs as arbitrary matrices `M`, `N`,
all four environment matrices — `sigBA` and `sigAB` of
`left_contract_MPS`, `muAB` and `muBA` of `right_contract_MPS` — are
Hermitian with trace 1, provided the traces divided by are nonzero (the
weight vectors are real, i.e. star-fixed). -/
theorem C6_environment_matrices (K : Type) [Field K] [StarRing K]
    (n d m : ℕ) (M : Matrix (Fin n) (Fin n) K)
    (N : Matrix (Fin m) (Fin m) K) (sBA : Fin n → K) (sAB : Fin m → K)
    (A : Fin n → Fin d → Fin m → K)
    (hsBA : ∀ i, star (sBA i) = sBA i)
    (hsAB : ∀ i, star (sAB i) = sAB i)
    (h1 : (envSym K n M).trace ≠ 0)
    (h2 : (sigAB_raw K n d m (env_fixed_point K n M) sBA A).trace ≠ 0)
    (h3 : (envSym K m N).trace ≠ 0)
    (h4 : (muBA_raw K n d m (env_fixed_point K m N) sAB A).trace ≠ 0) :
    (env_fixed_point K n M).IsHermitian ∧
    (env_fixed_point K n M).trace = 1 ∧
    (left_contract_sigAB K n d m M sBA A).IsHermitian ∧
    (left_contract_sigAB K n d m M sBA A).trace = 1 ∧
    (env_fixed_point K m N).IsHermitian ∧
    (env_fixed_point K m N).trace = 1 ∧
    (right_contract_muBA K n d m N sAB A).IsHermitian ∧
    (right_contract_muBA K n d m N sAB A).trace = 1 := by
  have hM : (env_fixed_point K n M).IsHermitian :=
    envTraceNorm_isHermitian K n _ (envSym_isHermitian K n M)
  have hN : (env_fixed_point K m N).IsHermitian :=
    envTraceNorm_isHermitian K m _ (envSym_isHermitian K m N)
  refine ⟨hM, envTraceNorm_trace K n _ h1, ?_, ?_, hN,
    envTraceNorm_trace K m _ h3, ?_, ?_⟩
  · exact envTraceNorm_isHermitian K m _
      (sigAB_raw_isHermitian K n d m _ sBA A hM hsBA)
  · exact envTraceNorm_trace K m _ h2
  · exact envTraceNorm_isHermitian K n _
      (muBA_raw_isHermitian K n d m _ sAB A hN hsAB)
  · exact envTraceNorm_trace K n _ h4

/-- C6 witness: `K = ℚ` (trivial star, the real-dtype branch), all
dimensions 1, all entries 1; every trace divided by equals 1. -/
theorem C6_environment_matrices_witness :
    ((∀ i : Fin 1, star ((fun _ : Fin 1 => (1 : ℚ)) i) =
        (fun _ : Fin 1 => (1 : ℚ)) i) ∧
     (envSym ℚ 1 (Matrix.of fun _ _ => 1)).trace ≠ 0 ∧
     (sigAB_raw ℚ 1 1 1
        (env_fixed_point ℚ 1 (Matrix.of fun _ _ => 1))
        (fun _ => 1) (fun _ _ _ => 1)).trace ≠ 0 ∧
     (muBA_raw ℚ 1 1 1
        (env_fixed_point ℚ 1 (Matrix.of fun _ _ => 1))
        (fun _ => 1) (fun _ _ _ => 1)).trace ≠ 0) ∧
    ((env_fixed_point ℚ 1 (Matrix.of fun _ _ => 1)).IsHermitian ∧
     (env_fixed_point ℚ 1 (Matrix.of fun _ _ => 1)).trace = 1 ∧
     (left_contract_sigAB ℚ 1 1 1 (Matrix.of fun _ _ => 1)
        (fun _ => 1) (fun _ _ _ => 1)).IsHermitian ∧
     (left_contract_sigAB ℚ 1 1 1 (Matrix.of fun _ _ => 1)
        (fun _ => 1) (fun _ _ _ => 1)).trace = 1 ∧
     (right_contract_muBA ℚ 1 1 1 (Matrix.of fun _ _ => 1)
        (fun _ => 1) (fun _ _ _ => 1)).IsHermitian ∧
     (right_contract_muBA ℚ 1 1 1 (Matrix.of fun _ _ => 1)
        (fun _ => 1) (fun _ _ _ => 1)).trace = 1) := by
  have htr1 : (envSym ℚ 1 (Matrix.of fun _ _ => 1)).trace ≠ 0 := by
    norm_num [envSym, Matrix.trace, Matrix.diag, Fin.sum_univ_one]
  have htr2 : (sigAB_raw ℚ 1 1 1
      (env_fixed_point ℚ 1 (Matrix.of fun _ _ => 1))
      (fun _ => 1) (fun _ _ _ => 1)).trace ≠ 0 := by
    norm_num [sigAB_raw, env_fixed_point, envTraceNorm, envSym,
      Matrix.trace, Matrix.diag, Fin.sum_univ_one]
  have htr3 : (muBA_raw ℚ 1 1 1
      (env_fixed_point ℚ 1 (Matrix.of fun _ _ => 1))
      (fun _ => 1) (fun _ _ _ => 1)).trace ≠ 0 := by
    norm_num [muBA_raw, env_fixed_point, envTraceNorm, envSym,
      Matrix.trace, Matrix.diag, Fin.sum_univ_one]
  have hmain := C6_environment_matrices ℚ 1 1 1 (Matrix.of fun _ _ => 1)
    (Matrix.of fun _ _ => 1) (fun _ => 1) (fun _ => 1) (fun _ _ _ => 1)
    (fun _ => rfl) (fun _ => rfl) htr1 htr2 htr1 htr3
  exact ⟨⟨fun _ => rfl, htr1, htr2, htr3⟩,
    hmain.1, hmain.2.1, hmain.2.2.1, hmain.2.2.2.1,
    hmain.2.2.2.2.2.2.1, hmain.2.2.2.2.2.2.2⟩

end TEBD

